import Mathlib

/-!
# Verification of the katomaran-taskflow Task State & Persistence Engine

Shallow embedding of the task CRUD service (`src/pages/TodoApp.tsx`, class
`TaskService`), of the query engine inside `TaskService.getTasks` /
`getTaskStats`, and of the optimistic-update hook `useTasks`
(`src/hooks/useTasks.ts`).

Modelling conventions:
- JavaScript `Date` values are modelled by their millisecond timestamp
  (`Nat`), the value returned by `Date.prototype.getTime()`.  JSON
  serialisation turns a `Date` into its `toISOString()` rendering and
  `new Date(isoString)` parses it back to the same millisecond timestamp,
  so a serialised date is represented by that timestamp.
- `localStorage` is modelled by a `Storage` record holding the two keys the
  service uses (`todo_tasks` and `todo_user_id`).  A possible
  `localStorage.setItem` failure (quota, privacy mode) is modelled by a
  `persistOk : Bool` parameter: `setItem` either stores the whole value or
  throws, leaving the previous value intact.
- `JSON.parse` of the stored bytes either throws, yields a non-array
  value on which `.map` throws, or yields an array whose elements are
  task-shaped objects or arbitrary other JSON values (numbers, strings,
  objects without the task fields ...) on which the per-record
  conversion does not throw.  The complete outcome model is `RawStored`;
  `StoredBlob` is its restriction to the values the service itself
  writes plus the two throwing cases, sufficient for every operation
  that only ever reads back what `saveTasksToStorage` wrote.
- Thrown JavaScript errors are modelled by `Except TaskError`; every
  service method wraps the body in try/catch and rethrows a generic
  error, which the model mirrors with an inner (try-body) function and an
  outer wrapping function.
- Strings are compared as their character lists; JavaScript `<` on strings
  is lexicographic comparison, `toLowerCase`/`trim` are modelled
  character-wise (`Char.toLower`, ASCII whitespace).
-/

namespace TaskFlow

/-- `TaskStatus` enum from `src/types/task.ts`: `OPEN = 'open'`,
`COMPLETE = 'complete'`. -/
inductive TaskStatus
  | OPEN
  | COMPLETE
deriving Repr, DecidableEq, Inhabited

/-- The `Task` interface from `src/types/task.ts`.  Dates are millisecond
timestamps; optional fields are `Option`. -/
structure Task where
  id : String
  title : String
  description : Option String
  dueDate : Option Nat
  status : TaskStatus
  createdAt : Nat
  updatedAt : Nat
  userId : Option String
deriving Repr, DecidableEq, Inhabited

/-- The JSON object shape a `Task` serialises to under `JSON.stringify`:
`Date` fields are rendered as ISO-8601 strings, represented here by the
millisecond timestamp they denote (`toISOString` is injective and
`new Date` recovers exactly that timestamp); `undefined` fields are
dropped, represented by `none`. -/
structure StoredTask where
  id : String
  title : String
  description : Option String
  dueDate : Option Nat
  status : TaskStatus
  createdAt : Nat
  updatedAt : Nat
  userId : Option String
deriving Repr, DecidableEq, Inhabited

/-- Result of `JSON.parse` on the bytes stored under `todo_tasks`,
restricted to the cases the service itself can produce or that make the
load throw internally: a parseable array of task-shaped objects (the
only thing `saveTasksToStorage` ever writes), a parseable non-array
value (on which `parsed.map` throws a `TypeError`), or bytes on which
`JSON.parse` itself throws (`malformed`).  A corrupted store can
additionally hold arrays containing non-task-shaped elements; that
complete parse-outcome model is `RawStored` below, with `rawOfBlob`
embedding this restriction into it. -/
inductive StoredBlob
  | blob (tasks : List StoredTask)
  | notAnArray
  | malformed
deriving Repr, DecidableEq

/-- The `localStorage` slice used by `TaskService`: the `todo_tasks` key
(`STORAGE_KEY`) and the `todo_user_id` key (`USER_KEY`). -/
structure Storage where
  todoTasks : Option StoredBlob
  todoUserId : Option String
deriving Repr, DecidableEq

/-- The JavaScript `Error` values thrown by `TaskService`, identified by
their message.  `notFound` is `Error('Task not found')`, `saveFailed` is
`Error('Failed to save tasks')`; the `failed*` constructors are the
generic errors each public method's `catch` block rethrows. -/
inductive TaskError
  | notFound
  | saveFailed
  | failedCreate
  | failedUpdate
  | failedDelete
  | failedToggle
deriving Repr, DecidableEq

/-- `JSON.stringify` of one task: field-for-field, with `Date` fields
rendered as their ISO string (kept as the timestamp they denote) and
`undefined` optional fields dropped (`none`). -/
def encodeTask (t : Task) : StoredTask :=
  { id := t.id
    title := t.title
    description := t.description
    dueDate := t.dueDate
    status := t.status
    createdAt := t.createdAt
    updatedAt := t.updatedAt
    userId := t.userId }

/-- The per-record conversion inside `loadTasksFromStorage`:
`{...task, createdAt: new Date(task.createdAt), updatedAt: new
Date(task.updatedAt), dueDate: task.dueDate ? new Date(task.dueDate) :
undefined}`.  An ISO string parses back to the timestamp it denotes; a
present `dueDate` string is non-empty hence truthy. -/
def decodeTask (st : StoredTask) : Task :=
  { id := st.id
    title := st.title
    description := st.description
    dueDate := st.dueDate
    status := st.status
    createdAt := st.createdAt
    updatedAt := st.updatedAt
    userId := st.userId }

/-- `TaskService.loadTasksFromStorage`: returns `[]` when nothing is
stored; otherwise `JSON.parse`s and converts date strings back to dates.
Any error thrown inside (unparseable bytes, `.map` on a non-array) is
caught and the method returns `[]`. -/
def loadTasksFromStorage (s : Storage) : List Task :=
  match s.todoTasks with
  | none => []
  | some (.blob stored) => stored.map decodeTask
  | some .notAnArray => []
  | some .malformed => []

/-- `TaskService.saveTasksToStorage`: `localStorage.setItem(STORAGE_KEY,
JSON.stringify(tasks))`.  On a write failure (`persistOk = false`) the
previous storage is left intact and `Error('Failed to save tasks')` is
thrown. -/
def saveTasksToStorage (s : Storage) (persistOk : Bool) (tasks : List Task) :
    Storage × Except TaskError Unit :=
  if persistOk then
    ({ s with todoTasks := some (.blob (tasks.map encodeTask)) }, .ok ())
  else
    (s, .error .saveFailed)

/-- `TaskService.getCurrentUserId`: `localStorage.getItem(USER_KEY) ||
'anonymous'` — `null` and the empty string are both falsy. -/
def getCurrentUserId (s : Storage) : String :=
  match s.todoUserId with
  | none => "anonymous"
  | some uid => if uid = "" then "anonymous" else uid

/-- ASCII whitespace for the model of `String.prototype.trim`. -/
def isJsWhitespace (c : Char) : Bool :=
  c = ' ' || c = '\t' || c = '\n' || c = '\r'

/-- Model of `String.prototype.trim`: drop leading and trailing
whitespace. -/
def jsTrim (s : String) : String :=
  .mk (((s.toList.dropWhile isJsWhitespace).reverse.dropWhile isJsWhitespace).reverse)

/-- Model of `String.prototype.toLowerCase` (ASCII case folding). -/
def jsToLower (s : String) : String :=
  .mk (s.toList.map Char.toLower)

/-- `CreateTaskRequest` from `src/types/task.ts`. -/
structure CreateTaskRequest where
  title : String
  description : Option String
  dueDate : Option Nat
deriving Repr, DecidableEq

/-- `UpdateTaskRequest` from `src/types/task.ts`.  For the optional
fields that can also legitimately carry the value `undefined`
(`description`, `dueDate`), the outer `Option` records whether the key is
present in the request object (a present key with value `undefined`
overwrites on spread). -/
structure UpdateTaskRequest where
  id : String
  title : Option String
  description : Option (Option String)
  dueDate : Option (Option Nat)
  status : Option TaskStatus
deriving Repr, DecidableEq

/-- The task object literal built inside `TaskService.createTask`:
trimmed title, trimmed optional description, OPEN status, fresh
timestamps, current user id.  `now` is `Date.now()` and `newId` the value
of `generateId()`. -/
def newTaskOf (s : Storage) (now : Nat) (newId : String)
    (request : CreateTaskRequest) : Task :=
  { id := newId
    title := jsTrim request.title
    description := request.description.map jsTrim
    dueDate := request.dueDate
    status := .OPEN
    createdAt := now
    updatedAt := now
    userId := some (getCurrentUserId s) }

/-- The try-body of `TaskService.createTask`: builds the task, appends it
(`tasks.push(task)`) and persists. -/
def createTaskInner (s : Storage) (persistOk : Bool) (now : Nat) (newId : String)
    (request : CreateTaskRequest) : Storage × Except TaskError Task :=
  let task := newTaskOf s now newId request
  let tasks := loadTasksFromStorage s
  match saveTasksToStorage s persistOk (tasks ++ [task]) with
  | (s2, .ok _) => (s2, .ok task)
  | (s2, .error e) => (s2, .error e)

/-- `TaskService.createTask`: the catch block rethrows
`Error('Failed to create task')`. -/
def createTask (s : Storage) (persistOk : Bool) (now : Nat) (newId : String)
    (request : CreateTaskRequest) : Storage × Except TaskError Task :=
  match createTaskInner s persistOk now newId request with
  | (s2, .ok t) => (s2, .ok t)
  | (s2, .error _) => (s2, .error .failedCreate)

/-- The merge `{...tasks[taskIndex], ...request, updatedAt: new Date()}`
inside `TaskService.updateTask`: keys present in the request overwrite,
`updatedAt` is re-stamped.  No field is re-validated or re-trimmed. -/
def mergeTask (t : Task) (request : UpdateTaskRequest) (now : Nat) : Task :=
  { id := request.id
    title := request.title.getD t.title
    description := (request.description.getD t.description)
    dueDate := (request.dueDate.getD t.dueDate)
    status := request.status.getD t.status
    createdAt := t.createdAt
    updatedAt := now
    userId := t.userId }

/-- The try-body of `TaskService.updateTask`: find the task by id (throw
`Error('Task not found')` if absent), merge, store at the same index,
persist. -/
def updateTaskInner (s : Storage) (persistOk : Bool) (now : Nat)
    (request : UpdateTaskRequest) : Storage × Except TaskError Task :=
  let tasks := loadTasksFromStorage s
  match tasks.findIdx? (fun t => t.id = request.id) with
  | none => (s, .error .notFound)
  | some taskIndex =>
    let updatedTask := mergeTask (tasks.getD taskIndex default) request now
    match saveTasksToStorage s persistOk (tasks.set taskIndex updatedTask) with
    | (s2, .ok _) => (s2, .ok updatedTask)
    | (s2, .error e) => (s2, .error e)

/-- `TaskService.updateTask`: the catch block rethrows
`Error('Failed to update task')` — including for the inner
`Error('Task not found')`. -/
def updateTask (s : Storage) (persistOk : Bool) (now : Nat)
    (request : UpdateTaskRequest) : Storage × Except TaskError Task :=
  match updateTaskInner s persistOk now request with
  | (s2, .ok t) => (s2, .ok t)
  | (s2, .error _) => (s2, .error .failedUpdate)

/-- The try-body of `TaskService.deleteTask`: filter the task out; if the
length did not shrink throw `Error('Task not found')`; otherwise persist
the filtered collection. -/
def deleteTaskInner (s : Storage) (persistOk : Bool) (id : String) :
    Storage × Except TaskError Unit :=
  let tasks := loadTasksFromStorage s
  let filteredTasks := tasks.filter (fun t => t.id ≠ id)
  if filteredTasks.length = tasks.length then
    (s, .error .notFound)
  else
    saveTasksToStorage s persistOk filteredTasks

/-- `TaskService.deleteTask`: the catch block rethrows
`Error('Failed to delete task')` — including for the inner
`Error('Task not found')`. -/
def deleteTask (s : Storage) (persistOk : Bool) (id : String) :
    Storage × Except TaskError Unit :=
  match deleteTaskInner s persistOk id with
  | (s2, .ok u) => (s2, .ok u)
  | (s2, .error _) => (s2, .error .failedDelete)

/-- The try-body of `TaskService.toggleTaskCompletion`: find the task
(throw `Error('Task not found')` if absent), flip its status and delegate
to the public `updateTask` (whose own catch already wraps errors). -/
def toggleTaskCompletionInner (s : Storage) (persistOk : Bool) (now : Nat)
    (id : String) : Storage × Except TaskError Task :=
  let tasks := loadTasksFromStorage s
  match tasks.find? (fun t => t.id = id) with
  | none => (s, .error .notFound)
  | some task =>
    let newStatus : TaskStatus := if task.status = .OPEN then .COMPLETE else .OPEN
    updateTask s persistOk now
      { id := id, title := none, description := none, dueDate := none,
        status := some newStatus }

/-- `TaskService.toggleTaskCompletion`: the catch block rethrows
`Error('Failed to toggle task')`. -/
def toggleTaskCompletion (s : Storage) (persistOk : Bool) (now : Nat)
    (id : String) : Storage × Except TaskError Task :=
  match toggleTaskCompletionInner s persistOk now id with
  | (s2, .ok t) => (s2, .ok t)
  | (s2, .error _) => (s2, .error .failedToggle)

/-! ## Query engine (`TaskService.getTasks`, `TaskService.getSortValue`) -/

/-- The `sortBy` union type `'dueDate' | 'createdAt' | 'title'`. -/
inductive SortBy
  | dueDate
  | createdAt
  | title
deriving Repr, DecidableEq

/-- The `sortOrder` union type `'asc' | 'desc'`. -/
inductive SortOrder
  | asc
  | desc
deriving Repr, DecidableEq

/-- `TaskFilters` from `src/types/task.ts`. -/
structure TaskFilters where
  status : Option TaskStatus
  search : Option String
  sortBy : Option SortBy
  sortOrder : Option SortOrder
deriving Repr, DecidableEq

/-- The empty filter object `{}`. -/
def noFilters : TaskFilters :=
  { status := none, search := none, sortBy := none, sortOrder := none }

/-- Millisecond timestamp of `new Date('9999-12-31')` (UTC midnight), the
sentinel `TaskService.getSortValue` substitutes for an absent
`dueDate`. -/
def NO_DUE_DATE_MS : Nat := 253402214400000

/-- The value `TaskService.getSortValue` returns for a task: a `Date`
(timestamp) for the date keys, a lower-cased string (as its character
list) for the title key. -/
inductive SortValue
  | date (ms : Nat)
  | str (chars : List Char)
deriving Repr, DecidableEq

/-- `TaskService.getSortValue(task, sortBy)`: `task.dueDate || new
Date('9999-12-31')` for `dueDate`, `task.createdAt` for `createdAt`,
`task.title.toLowerCase()` for `title`. -/
def getSortValue (t : Task) : SortBy → SortValue
  | .dueDate => .date (t.dueDate.getD NO_DUE_DATE_MS)
  | .createdAt => .date t.createdAt
  | .title => .str (t.title.toList.map Char.toLower)

/-- Lexicographic `<` on character lists — JavaScript relational
comparison of strings. -/
def charListLT : List Char → List Char → Bool
  | [], [] => false
  | [], _ :: _ => true
  | _ :: _, [] => false
  | a :: as, b :: bs => if a < b then true else if b < a then false else charListLT as bs

/-- JavaScript `<` on two sort values: numeric on dates (`valueOf`),
lexicographic on strings.  A fixed `sortBy` always produces two values of
the same shape; mixed shapes (unreachable) compare `false` like the NaN
comparisons they would produce. -/
def svLT : SortValue → SortValue → Bool
  | .date a, .date b => a < b
  | .str a, .str b => charListLT a b
  | .date _, .str _ => false
  | .str _, .date _ => false

/-- The "may come before" relation realised by the comparator in
`TaskService.getTasks`:
`comparison = aValue < bValue ? -1 : aValue > bValue ? 1 : 0`, negated
when `sortOrder === 'desc'`.  `a` may precede `b` exactly when the
effective comparison is `≤ 0`. -/
def taskLE (sb : SortBy) (ord : SortOrder) (a b : Task) : Bool :=
  match ord with
  | .asc => ! svLT (getSortValue b sb) (getSortValue a sb)
  | .desc => ! svLT (getSortValue a sb) (getSortValue b sb)

/-- Insert into a sorted list, keeping the new element after any earlier
element it ties with. -/
def orderedInsert (le : Task → Task → Bool) (a : Task) : List Task → List Task
  | [] => [a]
  | b :: l => if le a b then a :: b :: l else b :: orderedInsert le a l

/-- Stable sort.  ECMAScript requires `Array.prototype.sort` to be stable
and, for a consistent comparator such as the one above, to return the
sorted permutation — which is unique, so this structural stable sort is
extensionally the JavaScript sort. -/
def sortTasks (le : Task → Task → Bool) : List Task → List Task
  | [] => []
  | a :: l => orderedInsert le a (sortTasks le l)

/-- `pat` matches the front of the second list. -/
def charsStartWith : List Char → List Char → Bool
  | [], _ => true
  | _ :: _, [] => false
  | p :: ps, c :: cs => p = c && charsStartWith ps cs

/-- Substring test on character lists: `pat` occurs contiguously in the
second argument. -/
def charsContain (pat : List Char) : List Char → Bool
  | [] => pat.isEmpty
  | c :: rest => charsStartWith pat (c :: rest) || charsContain pat rest

/-- The search predicate in `TaskService.getTasks`:
`task.title.toLowerCase().includes(searchLower) ||
task.description?.toLowerCase().includes(searchLower)` (an absent
description short-circuits to `undefined`, which is falsy). -/
def matchesSearch (searchLower : List Char) (t : Task) : Bool :=
  charsContain searchLower (t.title.toList.map Char.toLower) ||
    (match t.description with
     | some d => charsContain searchLower (d.toList.map Char.toLower)
     | none => false)

/-- The filtering stages of `TaskService.getTasks` (before sorting):
status filter if `filters?.status` is truthy, then substring search if
`filters?.search` is truthy (the empty string is falsy and skips the
filter). -/
def applyStatusSearch (filters : TaskFilters) (tasks : List Task) : List Task :=
  let f1 :=
    match filters.status with
    | some st => tasks.filter (fun t => t.status = st)
    | none => tasks
  match filters.search with
  | some q => if q = "" then f1 else f1.filter (matchesSearch (q.toList.map Char.toLower))
  | none => f1

/-- `TaskService.getTasks`: load, filter, and sort when
`filters?.sortBy` is present (descending exactly when
`filters.sortOrder === 'desc'`). -/
def getTasks (s : Storage) (filters : TaskFilters) : List Task :=
  let f2 := applyStatusSearch filters (loadTasksFromStorage s)
  match filters.sortBy with
  | some sb =>
    sortTasks (taskLE sb (if filters.sortOrder = some .desc then .desc else .asc)) f2
  | none => f2

/-- The record returned by `TaskService.getTaskStats`. -/
structure TaskStats where
  total : Nat
  completed : Nat
  pending : Nat
  overdue : Nat
deriving Repr, DecidableEq

/-- The overdue predicate inside `getTaskStats`: `task.status ===
TaskStatus.OPEN && task.dueDate && new Date(task.dueDate) < now`. -/
def isOverdue (now : Nat) (t : Task) : Bool :=
  t.status = TaskStatus.OPEN &&
    (match t.dueDate with
     | some d => decide (d < now)
     | none => false)

/-- `TaskService.getTaskStats`: runs `getTasks()` with no filters and
counts. `now` is the `new Date()` captured at the start of the call. -/
def getTaskStats (s : Storage) (now : Nat) : TaskStats :=
  let tasks := getTasks s noFilters
  { total := tasks.length
    completed := (tasks.filter (fun t => t.status = TaskStatus.COMPLETE)).length
    pending := (tasks.filter (fun t => t.status = TaskStatus.OPEN)).length
    overdue := (tasks.filter (isOverdue now)).length }

/-! ## Optimistic state reconciler (`useTasks`, `src/hooks/useTasks.ts`)

Each hook operation is embedded as a function from the pre-call hook
state to the post-call hook state together with the ordered trace of its
observable events: issuing the service call, the service promise
settling, and every `setTasks` invocation, in the order the statements
execute in the source. -/

/-- The reconciler's state: the visible collection (`tasks` React state)
and the canonical storage behind the service. -/
structure HookState where
  tasks : List Task
  storage : Storage
deriving Repr, DecidableEq

/-- Observable events of one hook operation, in program order. -/
inductive HookEvent
  | repoCall
  | repoResolved (ok : Bool)
  | setVisible (tasks : List Task)
deriving Repr, DecidableEq

/-- Outcome of one hook operation. -/
structure HookResult (α : Type) where
  state : HookState
  trace : List HookEvent
  result : α
deriving Repr

/-- `useTasks.createTask`: awaits `taskService.createTask` first, and
only on success prepends the new task to the visible collection
(`setTasks(prev => [newTask, ...prev])`); on error it returns `null`
without touching the visible collection. -/
def hookCreateTask (st : HookState) (persistOk : Bool) (now : Nat) (newId : String)
    (request : CreateTaskRequest) : HookResult (Option Task) :=
  match createTask st.storage persistOk now newId request with
  | (s2, .ok t) =>
    { state := { tasks := t :: st.tasks, storage := s2 }
      trace := [.repoCall, .repoResolved true, .setVisible (t :: st.tasks)]
      result := some t }
  | (s2, .error _) =>
    { state := { tasks := st.tasks, storage := s2 }
      trace := [.repoCall, .repoResolved false]
      result := none }

/-- `useTasks.updateTask`: awaits `taskService.updateTask` first, and
only on success replaces the matching task in the visible collection;
on error it returns `null` without touching the visible collection. -/
def hookUpdateTask (st : HookState) (persistOk : Bool) (now : Nat)
    (request : UpdateTaskRequest) : HookResult (Option Task) :=
  match updateTask st.storage persistOk now request with
  | (s2, .ok u) =>
    let visible := st.tasks.map (fun t => if t.id = u.id then u else t)
    { state := { tasks := visible, storage := s2 }
      trace := [.repoCall, .repoResolved true, .setVisible visible]
      result := some u }
  | (s2, .error _) =>
    { state := { tasks := st.tasks, storage := s2 }
      trace := [.repoCall, .repoResolved false]
      result := none }

/-- `useTasks.toggleTaskCompletion`: same shape as `updateTask`, through
`taskService.toggleTaskCompletion`. -/
def hookToggleTask (st : HookState) (persistOk : Bool) (now : Nat)
    (id : String) : HookResult (Option Task) :=
  match toggleTaskCompletion st.storage persistOk now id with
  | (s2, .ok u) =>
    let visible := st.tasks.map (fun t => if t.id = u.id then u else t)
    { state := { tasks := visible, storage := s2 }
      trace := [.repoCall, .repoResolved true, .setVisible visible]
      result := some u }
  | (s2, .error _) =>
    { state := { tasks := st.tasks, storage := s2 }
      trace := [.repoCall, .repoResolved false]
      result := none }

/-- `useTasks.deleteTask`: removes the task from the visible collection
*before* awaiting `taskService.deleteTask` (optimistic update); on error
it does not restore a snapshot but re-runs `loadTasks()`, i.e. replaces
the visible collection with `taskService.getTasks(filters)`. -/
def hookDeleteTask (st : HookState) (persistOk : Bool) (filters : TaskFilters)
    (id : String) : HookResult Bool :=
  let optimistic := st.tasks.filter (fun t => t.id ≠ id)
  match deleteTask st.storage persistOk id with
  | (s2, .ok _) =>
    { state := { tasks := optimistic, storage := s2 }
      trace := [.setVisible optimistic, .repoCall, .repoResolved true]
      result := true }
  | (s2, .error _) =>
    let reloaded := getTasks s2 filters
    { state := { tasks := reloaded, storage := s2 }
      trace := [.setVisible optimistic, .repoCall, .repoResolved false,
                .setVisible reloaded]
      result := false }

/-- Does the event name a `setTasks` mutation? -/
def isSetVisible : HookEvent → Bool
  | .setVisible _ => true
  | _ => false

/-- Does the event name the settling of the service promise? -/
def isRepoResolved : HookEvent → Bool
  | .repoResolved _ => true
  | _ => false

/-- A trace mutates the visible collection before the repository call
resolves when its first `setVisible` strictly precedes its first
`repoResolved` (`List.findIdx` returns the length when no event
matches). -/
def mutatesBeforeResolve (trace : List HookEvent) : Bool :=
  trace.findIdx isSetVisible < trace.findIdx isRepoResolved

/-! ## Concrete fixtures used by counterexamples and witnesses -/

/-- Empty `localStorage`. -/
def emptyStorage : Storage := { todoTasks := none, todoUserId := none }

/-- A minimal OPEN task used to build concrete collections. -/
def sampleTask (id title : String) (dueDate : Option Nat) (userId : Option String) : Task :=
  { id := id, title := title, description := none, dueDate := dueDate,
    status := .OPEN, createdAt := 0, updatedAt := 0, userId := userId }

/-- Storage holding exactly the given tasks under `todo_tasks`. -/
def storageWith (tasks : List Task) (userId : Option String) : Storage :=
  { todoTasks := some (.blob (tasks.map encodeTask)), todoUserId := userId }

/-- A create request with an empty title. -/
def emptyTitleRequest : CreateTaskRequest :=
  { title := "", description := none, dueDate := none }

/-- An update request targeting an id, with no field keys present. -/
def bareUpdateRequest (id : String) : UpdateTaskRequest :=
  { id := id, title := none, description := none, dueDate := none, status := none }

/-- A task owned by user `bob`. -/
def bobTask : Task := sampleTask "b1" "Walk the dog" none (some "bob")

/-- Storage where the signed-in user is `alice` but the stored task
belongs to `bob`. -/
def aliceStorage : Storage := storageWith [bobTask] (some "alice")

/-- A task without a due date. -/
def noDueTask : Task := sampleTask "a" "A" none none

/-- A task whose due date lies strictly after the `9999-12-31`
sentinel. -/
def lateDueTask : Task := sampleTask "b" "B" (some (NO_DUE_DATE_MS + 1)) none

/-- Filters requesting an ascending sort by due date. -/
def dueAscFilters : TaskFilters :=
  { status := none, search := none, sortBy := some .dueDate, sortOrder := some .asc }

/-- Filters requesting an ascending sort by title. -/
def titleAscFilters : TaskFilters :=
  { status := none, search := none, sortBy := some .title, sortOrder := some .asc }

/-- The `"banana"`, `"Apple"`, `"cherry"` tasks of the spec's sorting
example, in stored order. -/
def bananaTask : Task := sampleTask "t1" "banana" none none

/-- See `bananaTask`. -/
def appleTask : Task := sampleTask "t2" "Apple" none none

/-- See `bananaTask`. -/
def cherryTask : Task := sampleTask "t3" "cherry" none none

/-- Storage holding the three tasks of the sorting example. -/
def bananaStorage : Storage := storageWith [bananaTask, appleTask, cherryTask] none

/-! ## Complete model of the stored bytes' parse outcomes

`saveTasksToStorage` only ever writes arrays of task-shaped objects, but
the `todo_tasks` key can hold arbitrary bytes.  The following layer
models every `JSON.parse` outcome, including arrays whose elements are
not task records — bytes such as `"[1]"`, or an array holding a string
or an empty object.  The per-record conversion does not throw on such
elements: property access on them yields `undefined` and
`new Date(undefined)` an Invalid Date, so the load returns junk records
for them instead of failing. -/

theorem charListLT_irrefl : ∀ l : List Char, charListLT l l = false := by
  intro l
  induction l with
  | nil => rfl
  | cons x xs ih => simp [charListLT, lt_irrefl, ih]

theorem charListLT_trans : ∀ (a b c : List Char),
    charListLT a b = true → charListLT b c = true → charListLT a c = true := by
  intro a
  induction a with
  | nil =>
    intro b c h1 h2
    cases b with
    | nil => simp [charListLT] at h1
    | cons b1 bs =>
      cases c with
      | nil => simp [charListLT] at h2
      | cons c1 cs => simp [charListLT]
  | cons a1 as ih =>
    intro b c h1 h2
    cases b with
    | nil => simp [charListLT] at h1
    | cons b1 bs =>
      cases c with
      | nil => simp [charListLT] at h2
      | cons c1 cs =>
        simp only [charListLT] at h1 h2 ⊢
        by_cases hab : a1 < b1
        · by_cases hbc : b1 < c1
          · simp [lt_trans hab hbc]
          · by_cases hcb : c1 < b1
            · simp [hbc, hcb] at h2
            · have hbe : b1 = c1 := le_antisymm (not_lt.mp hcb) (not_lt.mp hbc)
              subst hbe
              simp [hab]
        · by_cases hba : b1 < a1
          · simp [hab, hba] at h1
          · have hae : a1 = b1 := le_antisymm (not_lt.mp hba) (not_lt.mp hab)
            subst hae
            simp [lt_irrefl] at h1
            by_cases hac : a1 < c1
            · simp [hac]
            · by_cases hca : c1 < a1
              · simp [hac, hca] at h2
              · simp [hac, hca] at h2 ⊢
                exact ih bs cs h1 h2

theorem charListLT_connex : ∀ (a b : List Char), a ≠ b →
    charListLT a b = true ∨ charListLT b a = true := by
  intro a
  induction a with
  | nil =>
    intro b hne
    cases b with
    | nil => exact absurd rfl hne
    | cons b1 bs => left; rfl
  | cons a1 as ih =>
    intro b hne
    cases b with
    | nil => right; rfl
    | cons b1 bs =>
      simp only [charListLT]
      by_cases hab : a1 < b1
      · left; simp [hab]
      · by_cases hba : b1 < a1
        · right; simp [hba]
        · have hae : a1 = b1 := le_antisymm (not_lt.mp hba) (not_lt.mp hab)
          subst hae
          have hne2 : as ≠ bs := by
            intro hEq
            exact hne (by rw [hEq])
          simp [lt_irrefl]
          exact ih bs hne2

theorem charListLT_neg_trans : ∀ (a b c : List Char), charListLT b a = false →
    charListLT c b = false → charListLT c a = false := by
  intro a b c h1 h2
  cases hca : charListLT c a with
  | false => rfl
  | true =>
    exfalso
    rcases eq_or_ne a b with rfl | hne
    · exact absurd (h2.symm.trans hca) (by decide)
    · rcases charListLT_connex a b hne with hab | hba
      · exact absurd (h2.symm.trans (charListLT_trans c a b hca hab)) (by decide)
      · exact absurd (h1.symm.trans hba) (by decide)

theorem svLT_irrefl (v : SortValue) : svLT v v = false := by
  cases v with
  | date ms => simp [svLT]
  | str chars => simp [svLT, charListLT_irrefl]

theorem taskLE_total (sb : SortBy) (ord : SortOrder) (a b : Task) :
    (taskLE sb ord a b || taskLE sb ord b a) = true := by
  have key : ∀ u v : SortValue, (!svLT u v || !svLT v u) = true := by
    intro u v
    cases u with
    | date m =>
      cases v with
      | date n => simp [svLT]; omega
      | str c => simp [svLT]
    | str c1 =>
      cases v with
      | date n => simp [svLT]
      | str c2 =>
        simp only [svLT, Bool.or_eq_true, Bool.not_eq_true']
        cases h1 : charListLT c1 c2
        · exact Or.inl rfl
        · cases h2 : charListLT c2 c1
          · exact Or.inr rfl
          · exact absurd (charListLT_trans c1 c2 c1 h1 h2)
              (by simp [charListLT_irrefl])
  cases ord with
  | asc => simpa [taskLE, Bool.or_comm] using key (getSortValue b sb) (getSortValue a sb)
  | desc => simpa [taskLE, Bool.or_comm] using key (getSortValue a sb) (getSortValue b sb)

theorem svLT_date_shape (sb : SortBy) (hsb : sb ≠ SortBy.title) (t : Task) :
    ∃ n, getSortValue t sb = SortValue.date n := by
  cases sb with
  | dueDate => exact ⟨_, rfl⟩
  | createdAt => exact ⟨_, rfl⟩
  | title => exact absurd rfl hsb

theorem svLT_neg_trans_key (sb : SortBy) (a b c : Task) :
    svLT (getSortValue b sb) (getSortValue a sb) = false →
    svLT (getSortValue c sb) (getSortValue b sb) = false →
    svLT (getSortValue c sb) (getSortValue a sb) = false := by
  cases sb with
  | dueDate => simp [getSortValue, svLT]; omega
  | createdAt => simp [getSortValue, svLT]; omega
  | title =>
    intro h1 h2
    exact charListLT_neg_trans _ _ _ h1 h2

theorem taskLE_trans (sb : SortBy) (ord : SortOrder) (a b c : Task) :
    taskLE sb ord a b = true → taskLE sb ord b c = true → taskLE sb ord a c = true := by
  cases ord with
  | asc =>
    simp only [taskLE, Bool.not_eq_true']
    exact fun h1 h2 => svLT_neg_trans_key sb a b c h1 h2
  | desc =>
    simp only [taskLE, Bool.not_eq_true']
    exact fun h1 h2 => svLT_neg_trans_key sb c b a h2 h1

theorem taskLE_of_eq_key (sb : SortBy) (ord : SortOrder) (a b : Task)
    (h : getSortValue a sb = getSortValue b sb) : taskLE sb ord a b = true := by
  cases ord with
  | asc => simp [taskLE, h, svLT_irrefl]
  | desc => simp [taskLE, h, svLT_irrefl]

/-! ## Stable-sort lemmas -/

theorem orderedInsert_perm (le : Task → Task → Bool) (a : Task) :
    ∀ l, List.Perm (orderedInsert le a l) (a :: l) := by
  intro l
  induction l with
  | nil => exact List.Perm.refl _
  | cons b l ih =>
    simp only [orderedInsert]
    split
    · exact List.Perm.refl _
    · exact (ih.cons b).trans (List.Perm.swap a b l)

theorem sortTasks_perm (le : Task → Task → Bool) :
    ∀ l, List.Perm (sortTasks le l) l := by
  intro l
  induction l with
  | nil => exact List.Perm.refl _
  | cons a l ih => exact (orderedInsert_perm le a _).trans (ih.cons a)

theorem pairwise_orderedInsert (le : Task → Task → Bool)
    (total : ∀ x y, (le x y || le y x) = true)
    (htrans : ∀ x y z, le x y = true → le y z = true → le x z = true)
    (a : Task) : ∀ (l : List Task), l.Pairwise (fun x y => le x y = true) →
    (orderedInsert le a l).Pairwise (fun x y => le x y = true) := by
  intro l
  induction l with
  | nil => intro _; simp [orderedInsert]
  | cons b l ih =>
    intro hp
    rw [List.pairwise_cons] at hp
    obtain ⟨hb, hl⟩ := hp
    simp only [orderedInsert]
    split
    next hab =>
      refine List.Pairwise.cons ?_ (List.Pairwise.cons hb hl)
      intro x hx
      rcases List.mem_cons.mp hx with rfl | hx
      · exact hab
      · exact htrans a b x hab (hb x hx)
    next hab =>
      have hba : le b a = true := by
        cases hba2 : le b a
        · exfalso
          have hab2 : le a b = false := by
            cases h : le a b
            · rfl
            · exact absurd h hab
          have ht := total a b
          rw [hab2, hba2] at ht
          exact absurd ht (by decide)
        · rfl
      refine List.Pairwise.cons ?_ (ih hl)
      intro x hx
      rcases List.mem_cons.mp ((orderedInsert_perm le a l).mem_iff.mp hx) with rfl | hx2
      · exact hba
      · exact hb x hx2

theorem sortTasks_sorted (le : Task → Task → Bool)
    (total : ∀ x y, (le x y || le y x) = true)
    (htrans : ∀ x y z, le x y = true → le y z = true → le x z = true) :
    ∀ l, (sortTasks le l).Pairwise (fun x y => le x y = true) := by
  intro l
  induction l with
  | nil => simp [sortTasks]
  | cons a l ih => exact pairwise_orderedInsert le total htrans a _ ih

theorem filter_orderedInsert_pos (le : Task → Task → Bool) (p : Task → Bool) (a : Task)
    (h : ∀ b, p b = true → le a b = true) (hpa : p a = true) :
    ∀ l, (orderedInsert le a l).filter p = a :: l.filter p := by
  intro l
  induction l with
  | nil => simp [orderedInsert, hpa]
  | cons b l ih =>
    simp only [orderedInsert]
    split
    next hab => simp [List.filter_cons, hpa]
    next hab =>
      have hpb : p b = false := by
        cases hv : p b
        · rfl
        · exact absurd (h b hv) hab
      simp [List.filter_cons, hpb, ih]

theorem filter_orderedInsert_neg (le : Task → Task → Bool) (p : Task → Bool) (a : Task)
    (hpa : p a = false) :
    ∀ l, (orderedInsert le a l).filter p = l.filter p := by
  intro l
  induction l with
  | nil => simp [orderedInsert, hpa]
  | cons b l ih =>
    simp only [orderedInsert]
    split
    next hab => simp [List.filter_cons, hpa]
    next hab => simp [List.filter_cons, ih]

theorem sortTasks_filter_stable (le : Task → Task → Bool) (p : Task → Bool)
    (hp : ∀ x y, p x = true → p y = true → le x y = true) :
    ∀ l, (sortTasks le l).filter p = l.filter p := by
  intro l
  induction l with
  | nil => rfl
  | cons a l ih =>
    simp only [sortTasks]
    cases hpa : p a
    · rw [filter_orderedInsert_neg le p a hpa, ih, List.filter_cons]
      simp [hpa]
    · rw [filter_orderedInsert_pos le p a (fun b hb => hp a b hpa hb) hpa, ih,
        List.filter_cons]
      simp [hpa]

/-! ## Service-level helper lemmas -/

theorem decodeTask_encodeTask (t : Task) : decodeTask (encodeTask t) = t := rfl

theorem load_save (s : Storage) (tasks : List Task) :
    loadTasksFromStorage (saveTasksToStorage s true tasks).1 = tasks := by
  show loadTasksFromStorage { s with todoTasks := some (.blob (tasks.map encodeTask)) } = tasks
  simp only [loadTasksFromStorage, List.map_map]
  have h : decodeTask ∘ encodeTask = id := rfl
  rw [h, List.map_id]

theorem createTask_true_snd (s : Storage) (now : Nat) (newId : String)
    (request : CreateTaskRequest) :
    (createTask s true now newId request).2 = .ok (newTaskOf s now newId request) := rfl

theorem createTask_true_load (s : Storage) (now : Nat) (newId : String)
    (request : CreateTaskRequest) :
    loadTasksFromStorage (createTask s true now newId request).1
      = loadTasksFromStorage s ++ [newTaskOf s now newId request] :=
  load_save s (loadTasksFromStorage s ++ [newTaskOf s now newId request])

theorem updateTask_absent (s : Storage) (persistOk : Bool) (now : Nat)
    (request : UpdateTaskRequest)
    (h : ∀ t ∈ loadTasksFromStorage s, ¬ t.id = request.id) :
    updateTaskInner s persistOk now request = (s, .error .notFound) ∧
      updateTask s persistOk now request = (s, .error .failedUpdate) := by
  have hfind : (loadTasksFromStorage s).findIdx? (fun t => t.id = request.id) = none := by
    rw [List.findIdx?_eq_none_iff]
    intro x hx
    simp [h x hx]
  constructor
  · simp only [updateTaskInner, hfind]
  · simp only [updateTask, updateTaskInner, hfind]

theorem deleteTask_absent (s : Storage) (persistOk : Bool) (id : String)
    (h : ∀ t ∈ loadTasksFromStorage s, ¬ t.id = id) :
    deleteTaskInner s persistOk id = (s, .error .notFound) ∧
      deleteTask s persistOk id = (s, .error .failedDelete) := by
  have hfil : (loadTasksFromStorage s).filter (fun t => t.id ≠ id)
      = loadTasksFromStorage s := by
    rw [List.filter_eq_self]
    intro x hx
    simp [h x hx]
  have hinner : deleteTaskInner s persistOk id = (s, .error .notFound) := by
    simp only [deleteTaskInner, hfil]
    simp
  exact ⟨hinner, by simp only [deleteTask, hinner]⟩

theorem updateTask_persist_fail (s : Storage) (now : Nat)
    (request : UpdateTaskRequest) :
    updateTask s false now request = (s, .error .failedUpdate) := by
  simp only [updateTask, updateTaskInner]
  cases hfind : (loadTasksFromStorage s).findIdx? (fun t => t.id = request.id) with
  | none => rfl
  | some i => simp [saveTasksToStorage]

/-! ## C6 -/

/-- C6: for every sequence of tasks, `saveTasksToStorage` followed by
`loadTasksFromStorage` returns an equal sequence — every field
round-trips, the date-valued fields are parsed back to the same
timestamps, and absent `dueDate`/`description` stay absent (per-record
and for whole collections). -/
theorem save_load_roundtrip :
    (∀ (t : Task), decodeTask (encodeTask t) = t) ∧
      (∀ (s : Storage) (tasks : List Task),
        loadTasksFromStorage (saveTasksToStorage s true tasks).1 = tasks) :=
  ⟨fun _ => rfl, load_save⟩

/-! ## C9 -/

/-- C4: evaluating the code at the failing input.  With `alice` signed
in, `getTasks` returns the record owned by `bob`: the implementation
never filters by owner, contradicting the claim and the method's own doc
comment ("Get all tasks for current user"). -/
theorem getTasks_returns_foreign_record :
    getCurrentUserId aliceStorage = "alice" ∧
      getTasks aliceStorage noFilters = [bobTask] ∧
      bobTask.userId = some "bob" ∧
      ¬ bobTask.userId = some (getCurrentUserId aliceStorage) := by
  refine ⟨rfl, rfl, rfl, ?_⟩
  decide

/-- The query surface never consults the owner identifier: the result of
`getTasks` is independent of the stored current-user id, and with no
filters it returns every stored record whatever its `userId`. -/
theorem getTasks_owner_independent (s : Storage) (filters : TaskFilters)
    (uid : Option String) :
    getTasks { s with todoUserId := uid } filters = getTasks s filters ∧
      getTasks s noFilters = loadTasksFromStorage s :=
  ⟨rfl, rfl⟩

/-! ## C10 -/

/-- C10: when no current-user id is stored, `createTask` still succeeds
(no authentication check), the created task carries the fixed owner
identifier `anonymous`, and the persisted record is that task. -/
theorem createTask_anonymous_when_signed_out (s : Storage) (now : Nat)
    (newId : String) (request : CreateTaskRequest) (h : s.todoUserId = none) :
    (createTask s true now newId request).2 = .ok (newTaskOf s now newId request) ∧
      (newTaskOf s now newId request).userId = some "anonymous" ∧
      loadTasksFromStorage (createTask s true now newId request).1
        = loadTasksFromStorage s ++ [newTaskOf s now newId request] := by
  refine ⟨createTask_true_snd s now newId request, ?_, createTask_true_load s now newId request⟩
  simp [newTaskOf, getCurrentUserId, h]

/-- C10 witness. -/
theorem createTask_anonymous_when_signed_out_witness :
    (newTaskOf emptyStorage 5 "task_1" emptyTitleRequest).userId = some "anonymous" :=
  (createTask_anonymous_when_signed_out emptyStorage 5 "task_1" emptyTitleRequest rfl).2.1

/-! ## C1 -/

theorem updateTask_found_load (s : Storage) (now : Nat) (r : UpdateTaskRequest)
    (i : Nat) (h : (loadTasksFromStorage s).findIdx? (fun t => t.id = r.id) = some i) :
    loadTasksFromStorage (updateTask s true now r).1
      = (loadTasksFromStorage s).set i
          (mergeTask ((loadTasksFromStorage s).getD i default) r now) := by
  simp only [updateTask, updateTaskInner, h]
  exact load_save s _

/-- C1 counterexample: a create request whose trimmed title is empty does
NOT fail with a validation error — `createTask` succeeds and persists a
record whose title is the empty string, violating the 3–100 character
title invariant. -/
theorem createTask_empty_title_persisted :
    (createTask emptyStorage true 5 "task_1" emptyTitleRequest).2
        = .ok (newTaskOf emptyStorage 5 "task_1" emptyTitleRequest) ∧
      loadTasksFromStorage (createTask emptyStorage true 5 "task_1" emptyTitleRequest).1
        = [newTaskOf emptyStorage 5 "task_1" emptyTitleRequest] ∧
      (newTaskOf emptyStorage 5 "task_1" emptyTitleRequest).title = "" := by
  refine ⟨rfl, ?_, rfl⟩
  exact createTask_true_load emptyStorage 5 "task_1" emptyTitleRequest

/-- C1 amended: `TaskService` never validates the title.  `createTask`
persists the trimmed title whatever its length (it always succeeds when
the store write succeeds), and `updateTask` persists the merged record
verbatim — fields provided in the request, including the title, are
neither re-validated nor re-trimmed. -/
theorem createTask_no_validation :
    (∀ (s : Storage) (now : Nat) (newId : String) (request : CreateTaskRequest),
      (createTask s true now newId request).2 = .ok (newTaskOf s now newId request) ∧
        loadTasksFromStorage (createTask s true now newId request).1
          = loadTasksFromStorage s ++ [newTaskOf s now newId request] ∧
        (newTaskOf s now newId request).title = jsTrim request.title) ∧
      (∀ (s : Storage) (now : Nat) (r : UpdateTaskRequest) (i : Nat),
        (loadTasksFromStorage s).findIdx? (fun t => t.id = r.id) = some i →
        loadTasksFromStorage (updateTask s true now r).1
          = (loadTasksFromStorage s).set i
              (mergeTask ((loadTasksFromStorage s).getD i default) r now)) :=
  ⟨fun s now newId request =>
      ⟨createTask_true_snd s now newId request, createTask_true_load s now newId request, rfl⟩,
    updateTask_found_load⟩

/-- C1 witness. -/
theorem createTask_no_validation_witness :
    loadTasksFromStorage (updateTask (storageWith [sampleTask "a" "abc" none none] none)
        true 7 (bareUpdateRequest "a")).1
      = [mergeTask (sampleTask "a" "abc" none none) (bareUpdateRequest "a") 7] := by
  have h := createTask_no_validation.2 (storageWith [sampleTask "a" "abc" none none] none)
    7 (bareUpdateRequest "a") 0 (by decide)
  simpa using h

/-! ## C5 -/

/-- C5 counterexample: deleting or updating an absent id does fail and
leaves the storage unchanged, but the surfaced error is NOT the
`NotFound` error: the internal `Error('Task not found')` is caught by the
method's own catch block and re-thrown as the generic
`Error('Failed to delete task')` / `Error('Failed to update task')`. -/
theorem absent_id_error_wrapped :
    deleteTaskInner emptyStorage true "x" = (emptyStorage, .error .notFound) ∧
      deleteTask emptyStorage true "x" = (emptyStorage, .error .failedDelete) ∧
      updateTaskInner emptyStorage true 0 (bareUpdateRequest "x")
        = (emptyStorage, .error .notFound) ∧
      updateTask emptyStorage true 0 (bareUpdateRequest "x")
        = (emptyStorage, .error .failedUpdate) ∧
      ¬ TaskError.failedDelete = TaskError.notFound ∧
      ¬ TaskError.failedUpdate = TaskError.notFound :=
  ⟨rfl, rfl, rfl, rfl, by decide, by decide⟩

/-- C5 amended: for every id absent from the collection, `deleteTask` and
`updateTask` fail — internally with the `Task not found` error, surfaced
as the generic wrapped error — and the storage (hence the persisted
collection and what any subsequent load sees) is returned unchanged. -/
theorem absent_id_fail_unchanged (s : Storage) (persistOk : Bool) (now : Nat)
    (r : UpdateTaskRequest) (id : String) :
    ((∀ t ∈ loadTasksFromStorage s, ¬ t.id = id) →
      deleteTaskInner s persistOk id = (s, .error .notFound) ∧
        deleteTask s persistOk id = (s, .error .failedDelete)) ∧
      ((∀ t ∈ loadTasksFromStorage s, ¬ t.id = r.id) →
        updateTaskInner s persistOk now r = (s, .error .notFound) ∧
          updateTask s persistOk now r = (s, .error .failedUpdate)) :=
  ⟨deleteTask_absent s persistOk id, updateTask_absent s persistOk now r⟩

/-- C5 witness. -/
theorem absent_id_fail_unchanged_witness :
    deleteTask (storageWith [sampleTask "a" "abc" none none] none) true "zzz"
      = (storageWith [sampleTask "a" "abc" none none] none, .error .failedDelete) :=
  ((absent_id_fail_unchanged (storageWith [sampleTask "a" "abc" none none] none)
      true 0 (bareUpdateRequest "zzz") "zzz").1 (by decide)).2

/-! ## C3 -/

/-- C3: when the store write fails during an update of a present id, the
call fails, the canonical persisted collection — in particular its value
for that id — is unchanged, the reconciler leaves the visible collection
untouched, and if the visible collection matched the canonical one
before the call it still matches after. -/
theorem updateTask_persist_failure_atomic (st : HookState) (now : Nat)
    (r : UpdateTaskRequest)
    (h : (loadTasksFromStorage st.storage).any (fun t => t.id = r.id) = true) :
    updateTask st.storage false now r = (st.storage, .error .failedUpdate) ∧
      (loadTasksFromStorage (updateTask st.storage false now r).1).find?
          (fun t => t.id = r.id)
        = (loadTasksFromStorage st.storage).find? (fun t => t.id = r.id) ∧
      (hookUpdateTask st false now r).state = st ∧
      (st.tasks = loadTasksFromStorage st.storage →
        (hookUpdateTask st false now r).state.tasks
          = loadTasksFromStorage (hookUpdateTask st false now r).state.storage) := by
  have heq := updateTask_persist_fail st.storage now r
  have hstate : (hookUpdateTask st false now r).state = st := by
    simp only [hookUpdateTask, heq]
  refine ⟨heq, by rw [heq], hstate, ?_⟩
  intro hv
  rw [hstate, hv]

/-- C3 witness. -/
theorem updateTask_persist_failure_atomic_witness :
    updateTask (storageWith [sampleTask "a" "abc" none none] none) false 7
        (bareUpdateRequest "a")
      = (storageWith [sampleTask "a" "abc" none none] none, .error .failedUpdate) :=
  (updateTask_persist_failure_atomic
      { tasks := [sampleTask "a" "abc" none none],
        storage := storageWith [sampleTask "a" "abc" none none] none }
      7 (bareUpdateRequest "a") (by decide)).1

/-! ## C2 -/

theorem deleteTask_error_storage {s s2 : Storage} {persistOk : Bool} {id : String}
    {e : TaskError} (h : deleteTask s persistOk id = (s2, .error e)) : s2 = s := by
  by_cases hlen : ((loadTasksFromStorage s).filter (fun t => t.id ≠ id)).length
      = (loadTasksFromStorage s).length
  · simp only [deleteTask, deleteTaskInner, hlen, if_pos] at h
    exact (Prod.mk.injEq _ _ _ _).mp h |>.1.symm
  · cases persistOk with
    | false =>
      simp only [deleteTask, deleteTaskInner, hlen, if_neg, saveTasksToStorage,
        Bool.false_eq_true, ite_false] at h
      exact (Prod.mk.injEq _ _ _ _).mp h |>.1.symm
    | true =>
      simp only [deleteTask, deleteTaskInner, hlen, if_neg, saveTasksToStorage,
        ite_true] at h
      exact absurd ((Prod.mk.injEq _ _ _ _).mp h).2 (by simp)

/-- C2 counterexample: `useTasks.createTask` does NOT mutate the visible
collection before the repository call resolves — on a concrete successful
create, the trace shows the service promise settling strictly before the
only `setTasks` call. -/
theorem hookCreateTask_not_optimistic :
    mutatesBeforeResolve (hookCreateTask { tasks := [], storage := emptyStorage }
        true 5 "task_1" emptyTitleRequest).trace = false ∧
      (hookCreateTask { tasks := [], storage := emptyStorage }
        true 5 "task_1" emptyTitleRequest).trace
        = [.repoCall, .repoResolved true,
           .setVisible [newTaskOf emptyStorage 5 "task_1" emptyTitleRequest]] :=
  ⟨rfl, rfl⟩

/-- C2 amended: only `deleteTask` applies its visible mutation before the
repository call resolves; `createTask`, `updateTask` and
`toggleTaskCompletion` mutate the visible collection only after the call
resolves (and only on success).  No pre-action snapshot is retained: on a
failed delete the hook replaces the visible collection with a fresh
`getTasks` reload from the repository. -/
theorem reconciler_mutation_order :
    (∀ (st : HookState) (persistOk : Bool) (filters : TaskFilters) (id : String),
      mutatesBeforeResolve (hookDeleteTask st persistOk filters id).trace = true) ∧
      (∀ (st : HookState) (persistOk : Bool) (now : Nat) (newId : String)
          (request : CreateTaskRequest),
        mutatesBeforeResolve (hookCreateTask st persistOk now newId request).trace = false) ∧
      (∀ (st : HookState) (persistOk : Bool) (now : Nat) (request : UpdateTaskRequest),
        mutatesBeforeResolve (hookUpdateTask st persistOk now request).trace = false) ∧
      (∀ (st : HookState) (persistOk : Bool) (now : Nat) (id : String),
        mutatesBeforeResolve (hookToggleTask st persistOk now id).trace = false) ∧
      (∀ (st : HookState) (persistOk : Bool) (filters : TaskFilters) (id : String),
        (hookDeleteTask st persistOk filters id).result = false →
          (hookDeleteTask st persistOk filters id).state.tasks
            = getTasks st.storage filters) := by
  refine ⟨?_, ?_, ?_, ?_, ?_⟩
  · intro st persistOk filters id
    simp only [hookDeleteTask]
    cases h : deleteTask st.storage persistOk id with
    | mk s2 r => cases r <;> rfl
  · intro st persistOk now newId request
    simp only [hookCreateTask]
    cases h : createTask st.storage persistOk now newId request with
    | mk s2 r => cases r <;> rfl
  · intro st persistOk now request
    simp only [hookUpdateTask]
    cases h : updateTask st.storage persistOk now request with
    | mk s2 r => cases r <;> rfl
  · intro st persistOk now id
    simp only [hookToggleTask]
    cases h : toggleTaskCompletion st.storage persistOk now id with
    | mk s2 r => cases r <;> rfl
  · intro st persistOk filters id
    simp only [hookDeleteTask]
    cases h : deleteTask st.storage persistOk id with
    | mk s2 r =>
      cases r with
      | ok u => intro habs; exact absurd habs (by simp)
      | error e =>
        intro _
        rw [deleteTask_error_storage h]

/-- C2 witness. -/
theorem reconciler_mutation_order_witness :
    (hookDeleteTask { tasks := [], storage := emptyStorage } true noFilters "x").state.tasks
      = getTasks emptyStorage noFilters :=
  reconciler_mutation_order.2.2.2.2 { tasks := [], storage := emptyStorage }
    true noFilters "x" (by decide)

/-! ## C7 -/

theorem applyStatusSearch_sublist (filters : TaskFilters) (l : List Task) :
    List.Sublist (applyStatusSearch filters l) l := by
  have h1 : List.Sublist
      (match filters.status with
       | some st => l.filter (fun t => t.status = st)
       | none => l) l := by
    cases filters.status
    · exact List.Sublist.refl l
    · exact List.filter_sublist l
  simp only [applyStatusSearch]
  split
  · split
    · exact h1
    · exact List.Sublist.trans (List.filter_sublist _) h1
  · exact h1

/-- C7 counterexample: an absent `dueDate` does not sort as "infinitely
late" — it sorts as the fixed sentinel `9999-12-31`.  Concretely, sorting
by due date ascending places a task with NO due date before a task whose
due date is one millisecond after the sentinel, while the claim requires
the absent-due-date task to come last. -/
theorem absent_dueDate_not_infinitely_late :
    getTasks (storageWith [noDueTask, lateDueTask] none) dueAscFilters
        = [noDueTask, lateDueTask] ∧
      noDueTask.dueDate = none ∧
      lateDueTask.dueDate = some (NO_DUE_DATE_MS + 1) ∧
      ¬ getTasks (storageWith [noDueTask, lateDueTask] none) dueAscFilters
          = [lateDueTask, noDueTask] :=
  ⟨by decide, rfl, rfl, by decide⟩

/-- C7 amended: when `sortBy` is present the query returns a permutation
of the filtered records that is totally ordered by the chosen key — an
absent `dueDate` sorting as the fixed sentinel date `9999-12-31` (later
than any due date up to the sentinel, but not later than dates beyond
it), titles compared case-folded — ascending unless `sortOrder = desc`,
and stably (records with equal keys keep their original relative order);
when `sortBy` is absent the input order is unchanged.  Sorting the
`["banana","Apple","cherry"]` tasks by title ascending yields the
case-insensitive order `Apple, banana, cherry`. -/
theorem getTasks_sort_spec :
    (∀ (s : Storage) (filters : TaskFilters) (sb : SortBy), filters.sortBy = some sb →
      List.Perm (getTasks s filters) (applyStatusSearch filters (loadTasksFromStorage s)) ∧
        (getTasks s filters).Pairwise (fun a b =>
          taskLE sb (if filters.sortOrder = some SortOrder.desc then SortOrder.desc
            else SortOrder.asc) a b = true) ∧
        (∀ v : SortValue, (getTasks s filters).filter (fun t => getSortValue t sb = v)
          = (applyStatusSearch filters (loadTasksFromStorage s)).filter
              (fun t => getSortValue t sb = v))) ∧
      (∀ (s : Storage) (filters : TaskFilters), filters.sortBy = none →
        getTasks s filters = applyStatusSearch filters (loadTasksFromStorage s) ∧
          List.Sublist (getTasks s filters) (loadTasksFromStorage s)) ∧
      getTasks bananaStorage titleAscFilters = [appleTask, bananaTask, cherryTask] := by
  refine ⟨?_, ?_, by decide⟩
  · intro s filters sb hsb
    simp only [getTasks, hsb]
    set ord := (if filters.sortOrder = some SortOrder.desc then SortOrder.desc
      else SortOrder.asc) with hord
    set base := applyStatusSearch filters (loadTasksFromStorage s) with hbase
    refine ⟨sortTasks_perm _ base, ?_, ?_⟩
    · exact sortTasks_sorted (taskLE sb ord) (taskLE_total sb ord) (taskLE_trans sb ord) base
    · intro v
      apply sortTasks_filter_stable
      intro x y hx hy
      have hx2 : getSortValue x sb = v := by simpa using hx
      have hy2 : getSortValue y sb = v := by simpa using hy
      exact taskLE_of_eq_key sb ord x y (hx2.trans hy2.symm)
  · intro s filters hsb
    constructor
    · simp [getTasks, hsb]
    · simp only [getTasks, hsb]
      exact applyStatusSearch_sublist filters (loadTasksFromStorage s)

/-- C7 witness. -/
theorem getTasks_sort_spec_witness :
    (getTasks bananaStorage titleAscFilters).Pairwise
      (fun a b => taskLE SortBy.title
        (if titleAscFilters.sortOrder = some SortOrder.desc then SortOrder.desc
          else SortOrder.asc) a b = true) :=
  (getTasks_sort_spec.1 bananaStorage titleAscFilters SortBy.title rfl).2.1

/-! ## C8 -/

theorem getTasks_noFilters_eq (s : Storage) :
    getTasks s noFilters = loadTasksFromStorage s := rfl

/-- C8: `getTaskStats` is computed over the whole stored collection:
`total` counts every record, `completed` those with status COMPLETE,
`pending` those with status OPEN, `overdue` those with status OPEN whose
`dueDate` is present and strictly before the evaluation instant; and
`total = completed + pending` always. -/
theorem getTaskStats_spec (s : Storage) (now : Nat) :
    (getTaskStats s now).total = (loadTasksFromStorage s).length ∧
      (getTaskStats s now).completed
        = ((loadTasksFromStorage s).filter
            (fun t => t.status = TaskStatus.COMPLETE)).length ∧
      (getTaskStats s now).pending
        = ((loadTasksFromStorage s).filter (fun t => t.status = TaskStatus.OPEN)).length ∧
      (getTaskStats s now).overdue
        = ((loadTasksFromStorage s).filter (isOverdue now)).length ∧
      (∀ t : Task, isOverdue now t = true ↔
        (t.status = TaskStatus.OPEN ∧ ∃ d, t.dueDate = some d ∧ d < now)) ∧
      (getTaskStats s now).total
        = (getTaskStats s now).completed + (getTaskStats s now).pending := by
  refine ⟨rfl, rfl, rfl, rfl, ?_, ?_⟩
  · intro t
    cases ht : t.status <;> cases hd : t.dueDate <;>
      simp [isOverdue, ht, hd]
  · show (loadTasksFromStorage s).length
      = ((loadTasksFromStorage s).filter
          (fun t => decide (t.status = TaskStatus.COMPLETE))).length
        + ((loadTasksFromStorage s).filter
            (fun t => decide (t.status = TaskStatus.OPEN))).length
    rw [List.length_eq_length_filter_add
      (fun t => decide (t.status = TaskStatus.COMPLETE))]
    congr 1
    have hfe : (loadTasksFromStorage s).filter
        (fun t => !decide (t.status = TaskStatus.COMPLETE))
        = (loadTasksFromStorage s).filter (fun t => decide (t.status = TaskStatus.OPEN)) := by
      apply List.filter_congr
      intro t _
      cases ht : t.status <;> simp [ht]
    rw [hfe]

end TaskFlow
